import Mathlib

/-!
Verification of the Olympus ticket lifecycle and auto-assignment engine.

This file is a shallow embedding of the core logic of the repository:

* `src/mcp/monitor/ticket_system.py` — employee scoring, assignment
  selection, ticket creation, admin approval/rejection, workload
  bookkeeping;
* `src/mcp/monitor/routes.py` — the resolve-ticket transition
  (`resolve_ticket`);
* `src/mcp/monitor/log_data.py` — the customer health aggregator
  (`get_customer_health_summary`).

Modelling conventions:

* Python records (dicts) become Lean structures whose fields are the keys
  the code reads/writes.  Records are assumed well-formed (the `get`
  defaults of the source handle missing keys at the storage boundary).
* Numbers are modelled as `ℚ` (the source converts DynamoDB decimals to
  Python floats; all quantities in the core are small integers divided by
  small integers, exactly representable).  Python's `round(x, 2)` is
  modelled as rational rounding to two decimal places.
* Persistence (DynamoDB / JSON fallback) is modelled as a `World` record
  holding the employee and ticket collections; every storage write
  succeeds.  Each stateful operation is a function `World → ... → World ×
  result`, translated line by line from the JSON-fallback path of the
  source (the DynamoDB branch performs the same logical update).
* `datetime.utcnow().isoformat()` timestamps and `uuid`-based ticket ids
  are modelled as explicit parameters (`now`, `tid`) supplied by the
  caller; the core only stores them.
* Python truthiness on optional strings (`x or y`, `if not x`) is
  modelled by `truthy : Option String → Option String`, which maps `""`
  and `none` to `none`.
-/

namespace Olympus

/-- Python's `round(x, 2)` modelled on `ℚ`: round `100·x` to the nearest
integer and divide by `100`.  (Python rounds the underlying binary float
half-to-even; on the exact rationals arising here the two agree away from
half-way ties, which do not occur in any property below.) -/
def round2 (q : ℚ) : ℚ := (round (q * 100) : ℤ) / 100

/-- Python's `str.lower()` (character-wise ASCII lowering, which is all
the source's enum-like strings use). -/
def strLower (s : String) : String := ⟨s.data.map Char.toLower⟩

/-- Python's `str.upper()` (character-wise ASCII raising). -/
def strUpper (s : String) : String := ⟨s.data.map Char.toUpper⟩

/-- An employee record, with the fields read by the core
(`ticket_system.py`). -/
structure Employee where
  employee_id : String
  name : String
  skills : List String
  specializations : List String
  experience_level : String
  availability_status : String
  current_workload : ℚ
  max_workload : ℚ
  deriving Repr, DecidableEq

/-- `experience_scores.get(experience_level, 10)` from `score_employee`
(`ticket_system.py:325-331`): senior→25, mid→15, junior→10, entry→5,
anything else→10. -/
def experience_scores (lvl : String) : ℚ :=
  if lvl = "senior" then 25
  else if lvl = "mid" then 15
  else if lvl = "junior" then 10
  else if lvl = "entry" then 5
  else 10

/-- Skill-match component of `score_employee` (`ticket_system.py:314-321`):
`|skills ∩ required| / |required| * 40`, full 40 when `required_skills`
is empty.  Python `set(...)` is modelled by `List.toFinset`. -/
def skillComponent (e : Employee) (required_skills : List String) : ℚ :=
  let employee_skills := e.skills.toFinset
  let required_skills_set := required_skills.toFinset
  if required_skills_set.Nonempty then
    ((employee_skills ∩ required_skills_set).card : ℚ)
      / (required_skills_set.card : ℚ) * 40
  else 40

/-- Experience component of `score_employee` (`ticket_system.py:323-331`),
applied to the lower-cased experience level. -/
def experienceComponent (e : Employee) : ℚ :=
  experience_scores (strLower e.experience_level)

/-- Workload-headroom component of `score_employee`
(`ticket_system.py:333-338`): `(1 - current/max) * 20` when
`max_workload > 0`, else the full factor `1` (guarding division by
zero). -/
def workloadComponent (e : Employee) : ℚ :=
  (if e.max_workload > 0 then 1 - e.current_workload / e.max_workload else 1) * 20

/-- Specialization component of `score_employee`
(`ticket_system.py:340-345`): 15 on a match, 5 when the employee has
some (non-matching) specializations, 0 when none. -/
def specializationComponent (e : Employee) (specialization_match : String) : ℚ :=
  let employee_specializations := e.specializations.toFinset
  if specialization_match ∈ employee_specializations then 15
  else if employee_specializations.Nonempty then 5
  else 0

/-- `score_employee(employee, required_skills, issue_type,
specialization_match)` (`ticket_system.py:307-347`).  The source
accumulates the four components into `score` and returns
`round(score, 2)`; `issue_type` is accepted but unused. -/
def score_employee (e : Employee) (required_skills : List String)
    (_issue_type : String) (specialization_match : String) : ℚ :=
  round2 (skillComponent e required_skills + experienceComponent e
    + workloadComponent e + specializationComponent e specialization_match)

/-- The availability filter of `find_best_employee`
(`ticket_system.py:358-363`): keep employees with
`availability_status.lower() == "available"` and
`current_workload < max_workload`. -/
def availabilityFilter (e : Employee) : Bool :=
  strLower e.availability_status = "available"
    && e.current_workload < e.max_workload

/-- The filtered candidate list of `find_best_employee`. -/
def available_employees (employees : List Employee) : List Employee :=
  employees.filter availabilityFilter

/-- The descending-by-score comparison used to model
`scored_employees.sort(key=lambda x: x[0], reverse=True)`
(`ticket_system.py:375`).  Python's sort with `reverse=True` is a stable
descending sort, modelled by a stable `mergeSort` with this relation. -/
def scoreDesc (a b : ℚ × Employee) : Bool := b.1 ≤ a.1

/-- `find_best_employee(required_skills, issue_type, specialization)`
(`ticket_system.py:350-380`), as a pure function of the employee list it
loads: filter available employees, return `None` if empty, otherwise
score all candidates, stable-sort descending by score, and return the
top candidate. -/
def find_best_employee (employees : List Employee)
    (required_skills : List String) (issue_type specialization : String) :
    Option Employee :=
  let avail := available_employees employees
  if avail.isEmpty then none
  else
    let scored := avail.map
      (fun e => (score_employee e required_skills issue_type specialization, e))
    let sorted := scored.mergeSort scoreDesc
    (sorted.head?).map (·.2)

/-- `determine_required_skills(issue_type, severity)`
(`ticket_system.py:383-396`); `severity` is accepted but unused. -/
def determine_required_skills (issue_type : String) (_severity : String) :
    List String :=
  if issue_type = "memory_leak" then ["Python", "AWS", "DevOps", "Monitoring"]
  else if issue_type = "cpu_spike" then ["AWS", "DevOps", "Performance", "CloudWatch"]
  else if issue_type = "disk_full" then ["AWS", "DevOps", "Storage", "EC2"]
  else if issue_type = "network_issue" then ["AWS", "Network", "DevOps", "CloudWatch"]
  else if issue_type = "security" then ["Security", "AWS", "DevOps", "Compliance"]
  else if issue_type = "error_log" then ["Python", "AWS", "DevOps", "Troubleshooting"]
  else if issue_type = "performance" then ["Performance", "AWS", "DevOps", "Monitoring"]
  else if issue_type = "infrastructure" then ["AWS", "DevOps", "Infrastructure", "CloudWatch"]
  else ["AWS", "DevOps"]

/-- `determine_specialization(issue_type)` (`ticket_system.py:399-412`). -/
def determine_specialization (issue_type : String) : String :=
  if issue_type = "memory_leak" then "performance"
  else if issue_type = "cpu_spike" then "performance"
  else if issue_type = "disk_full" then "infrastructure"
  else if issue_type = "network_issue" then "infrastructure"
  else if issue_type = "security" then "security"
  else if issue_type = "error_log" then "troubleshooting"
  else if issue_type = "performance" then "performance"
  else if issue_type = "infrastructure" then "infrastructure"
  else "general"

/-- Python truthiness on an optional string: `None` and `""` are falsy.
Used to model `x or y` and `if not x:` on ids and texts. -/
def truthy : Option String → Option String
  | none => none
  | some s => if s = "" then none else some s

/-- Python `a or b` on optional strings. -/
def pyOrOpt (a b : Option String) : Option String :=
  match truthy a with
  | some s => some s
  | none => b

/-- Python `a or default` where `a` is an optional string and `default`
a string (e.g. `description or issue`, `reason or "Admin rejected"`). -/
def pyOrStr (a : Option String) (dflt : String) : String :=
  match truthy a with
  | some s => s
  | none => dflt

/-- A ticket record, with the union of the keys the core ever writes
(`ticket_system.py` and the resolve route of `routes.py`).  Keys a given
code path does not write are `none` (modelling an absent dict key); the
field names keep the source's spelling, including the
`assigned_employee_ID` capitalisation. -/
structure Ticket where
  ticket_id : String
  issue : String
  status : String
  severity : String
  resource_id : String
  created_at : String
  pending_admin_approval : Bool
  suggested_employee_id : Option String := none
  admin_notified : Option Bool := none
  assigned_employee_ID : Option String := none
  assigned_at : Option String := none
  issue_type : String
  description : String
  customer_name : Option String := none
  logs_related : List String := []
  metrics_snapshot : List (String × ℚ) := []
  required_skills : Option (List String) := none
  specialization : Option String := none
  approved_by : Option String := none
  approved_at : Option String := none
  rejected_by : Option String := none
  rejected_at : Option String := none
  rejection_reason : Option String := none
  resolved_at : Option String := none
  resolution : Option String := none
  deriving Repr, DecidableEq

/-- The persistent state the core operates on: the employees and tickets
collections of the Directory Store (DynamoDB or the JSON fallback; both
implement the same logical list).  Admin records are read-only and only
checked for existence at the HTTP layer, so they are not part of the
mutable state the claims concern. -/
structure World where
  employees : List Employee
  tickets : List Ticket
  deriving Repr, DecidableEq

/-- The body of `update_employee_workload(employee_id, increment)`
(`ticket_system.py:114-123`): walk the employee list, update the first
employee with the matching id to `max(0, current_workload + increment)`,
and report whether a match was found. -/
def updateWorkloadList (employees : List Employee) (employee_id : String)
    (increment : ℚ) : List Employee × Bool :=
  match employees with
  | [] => ([], false)
  | e :: rest =>
    if e.employee_id = employee_id then
      ({ e with current_workload := max 0 (e.current_workload + increment) } :: rest,
        true)
    else
      let r := updateWorkloadList rest employee_id increment
      (e :: r.1, r.2)

/-- `update_employee_workload` as a `World` transition. -/
def update_employee_workload (w : World) (employee_id : String)
    (increment : ℚ) : World × Bool :=
  let r := updateWorkloadList w.employees employee_id increment
  ({ w with employees := r.1 }, r.2)

/-- `get_employee_by_id(employee_id)` (`ticket_system.py:97-111`): first
employee with the given id, else `None`. -/
def get_employee_by_id (employees : List Employee) (employee_id : String) :
    Option Employee :=
  employees.find? (fun e => e.employee_id = employee_id)

/-- `get_ticket_by_id(ticket_id)` (`ticket_system.py:243-257`): first
ticket with the given id, else `None`. -/
def get_ticket_by_id (tickets : List Ticket) (ticket_id : String) :
    Option Ticket :=
  tickets.find? (fun t => t.ticket_id = ticket_id)

/-- The body of `update_ticket(ticket_id, updates)`
(`ticket_system.py:279-300`): apply the update to the first ticket with
the matching id, reporting whether a match was found.  Each caller
instantiates `upd` with the literal `updates` dict it builds. -/
def updateTicketList (tickets : List Ticket) (ticket_id : String)
    (upd : Ticket → Ticket) : List Ticket × Bool :=
  match tickets with
  | [] => ([], false)
  | t :: rest =>
    if t.ticket_id = ticket_id then (upd t :: rest, true)
    else
      let r := updateTicketList rest ticket_id upd
      (t :: r.1, r.2)

/-- The inputs of a ticket-creation call
(`issue, resource_id, severity, issue_type, description=None,
customer_name=None, logs_related=None, metrics_snapshot=None`), plus the
generated ticket id and the current timestamp, which the source obtains
from `uuid` and `datetime.utcnow()` and this model takes as inputs. -/
structure CreateArgs where
  tid : String
  now : String
  issue : String
  resource_id : String
  issue_type : String
  description : Option String := none
  customer_name : Option String := none
  logs_related : Option (List String) := none
  metrics_snapshot : Option (List (String × ℚ)) := none

/-- The ticket dict built by `create_critical_ticket`
(`ticket_system.py:437-456`). -/
def pendingTicket (a : CreateArgs) (severity : String)
    (suggested_employee_id : Option String) : Ticket :=
  { ticket_id := a.tid
    issue := a.issue
    status := "PENDING_APPROVAL"
    severity := severity
    resource_id := a.resource_id
    created_at := a.now
    pending_admin_approval := true
    suggested_employee_id := suggested_employee_id
    admin_notified := some false
    assigned_employee_ID := none
    assigned_at := none
    issue_type := a.issue_type
    description := pyOrStr a.description a.issue
    customer_name := a.customer_name
    logs_related := a.logs_related.getD []
    metrics_snapshot := a.metrics_snapshot.getD []
    required_skills := some (determine_required_skills a.issue_type severity)
    specialization := some (determine_specialization a.issue_type) }

/-- `create_critical_ticket` (`ticket_system.py:424-461`): resolve
skills/specialization, look up a *suggested* employee without committing
it, and persist the ticket with status `PENDING_APPROVAL`.
`create_ticket` appends to the tickets collection and succeeds in this
model, so the function returns the ticket it persisted. -/
def create_critical_ticket (w : World) (a : CreateArgs) (severity : String) :
    World × Option Ticket :=
  let required_skills := determine_required_skills a.issue_type severity
  let specialization := determine_specialization a.issue_type
  let suggested_employee :=
    find_best_employee w.employees required_skills a.issue_type specialization
  let t : Ticket :=
    pendingTicket a severity (suggested_employee.map (·.employee_id))
  ({ w with tickets := w.tickets ++ [t] }, some t)

/-- The unassigned ticket dict of `create_non_critical_ticket`
(`ticket_system.py:477-494`). -/
def openTicket (a : CreateArgs) (severity : String) : Ticket :=
  { ticket_id := a.tid
    issue := a.issue
    status := "OPEN"
    severity := severity
    resource_id := a.resource_id
    created_at := a.now
    pending_admin_approval := false
    assigned_employee_ID := none
    assigned_at := none
    issue_type := a.issue_type
    description := pyOrStr a.description a.issue
    customer_name := a.customer_name
    logs_related := a.logs_related.getD []
    metrics_snapshot := a.metrics_snapshot.getD [] }

/-- The assigned ticket dict of `create_non_critical_ticket`
(`ticket_system.py:500-515`). -/
def assignedTicket (a : CreateArgs) (severity : String)
    (assigned_employee_id : String) : Ticket :=
  { ticket_id := a.tid
    issue := a.issue
    status := "ASSIGNED"
    severity := severity
    resource_id := a.resource_id
    created_at := a.now
    pending_admin_approval := false
    assigned_employee_ID := some assigned_employee_id
    assigned_at := some a.now
    issue_type := a.issue_type
    description := pyOrStr a.description a.issue
    customer_name := a.customer_name
    logs_related := a.logs_related.getD []
    metrics_snapshot := a.metrics_snapshot.getD [] }

/-- `create_non_critical_ticket` (`ticket_system.py:464-520`): pick the
best employee; if none is available persist an unassigned `OPEN` ticket,
otherwise increment the chosen employee's workload via
`update_employee_workload` and persist an `ASSIGNED` ticket. -/
def create_non_critical_ticket (w : World) (a : CreateArgs)
    (severity : String) : World × Option Ticket :=
  let required_skills := determine_required_skills a.issue_type severity
  let specialization := determine_specialization a.issue_type
  let assigned_employee :=
    find_best_employee w.employees required_skills a.issue_type specialization
  match assigned_employee with
  | none =>
    let t := openTicket a severity
    ({ w with tickets := w.tickets ++ [t] }, some t)
  | some emp =>
    let assigned_employee_id := emp.employee_id
    let w1 := (update_employee_workload w assigned_employee_id 1).1
    let t := assignedTicket a severity assigned_employee_id
    ({ w1 with tickets := w1.tickets ++ [t] }, some t)

/-- The severity normalisation in `create_ticket_from_issue`
(`ticket_system.py:530`): `severity.upper() if severity else "MEDIUM"`.
A missing (`None`) or empty severity is falsy and defaults to
`"MEDIUM"`. -/
def severityUpper (severity : Option String) : String :=
  match truthy severity with
  | some s => strUpper s
  | none => "MEDIUM"

/-- `create_ticket_from_issue` (`ticket_system.py:523-541`): normalise
severity to upper case, then branch to the admin-gated path on
`"CRITICAL"` and the auto-assign path otherwise, passing the normalised
severity down in both cases. -/
def create_ticket_from_issue (w : World) (a : CreateArgs)
    (severity : Option String) : World × Option Ticket :=
  let severity_upper := severityUpper severity
  if severity_upper = "CRITICAL" then
    create_critical_ticket w a severity_upper
  else
    create_non_critical_ticket w a severity_upper

/-- The result of an admin/lifecycle operation: the source returns
either `{"error": msg}` or a success payload carrying the re-read
ticket. -/
inductive OpResult where
  | success (ticket : Option Ticket)
  | error (msg : String)
  deriving Repr, DecidableEq

/-- The `updates` dict of `approve_critical_ticket`
(`ticket_system.py:574-581`). -/
def approveUpdate (assigned_employee_id admin_id now : String)
    (t : Ticket) : Ticket :=
  { t with
      status := "ASSIGNED"
      pending_admin_approval := false
      assigned_employee_ID := some assigned_employee_id
      assigned_at := some now
      approved_by := some admin_id
      approved_at := some now }

/-- `approve_critical_ticket(ticket_id, admin_id, employee_id=None)`
(`ticket_system.py:548-585`): only a `PENDING_APPROVAL` ticket can be
approved; the target employee is the explicit `employee_id` or else the
ticket's `suggested_employee_id` (Python `or`, so `""` falls through);
missing target and unknown employee fail before any mutation; on
success the target's workload is incremented by 1 and the ticket is
moved to `ASSIGNED` with `approved_by`/`approved_at`/`assigned_at`
stamped. -/
def approve_critical_ticket (w : World) (ticket_id admin_id : String)
    (employee_id : Option String) (now : String) : World × OpResult :=
  match get_ticket_by_id w.tickets ticket_id with
  | none => (w, .error "Ticket not found")
  | some ticket =>
    if ticket.status ≠ "PENDING_APPROVAL" then
      (w, .error "Ticket is not pending approval")
    else
      match truthy (pyOrOpt employee_id ticket.suggested_employee_id) with
      | none => (w, .error "No employee specified for assignment")
      | some assigned_employee_id =>
        match get_employee_by_id w.employees assigned_employee_id with
        | none => (w, .error "Employee not found")
        | some _ =>
          let w1 := (update_employee_workload w assigned_employee_id 1).1
          let r := updateTicketList w1.tickets ticket_id
            (approveUpdate assigned_employee_id admin_id now)
          if r.2 then
            ({ w1 with tickets := r.1 },
              .success (get_ticket_by_id r.1 ticket_id))
          else (w1, .error "Failed to update ticket")

/-- The `updates` dict of `reject_critical_ticket`
(`ticket_system.py:598-604`). -/
def rejectUpdate (admin_id now : String) (reason : Option String)
    (t : Ticket) : Ticket :=
  { t with
      status := "REJECTED"
      pending_admin_approval := false
      rejected_by := some admin_id
      rejected_at := some now
      rejection_reason := some (pyOrStr reason "Admin rejected") }

/-- `reject_critical_ticket(ticket_id, admin_id, reason=None)`
(`ticket_system.py:588-608`): only a `PENDING_APPROVAL` ticket can be
rejected; on success the ticket moves to `REJECTED` with
`rejected_by`/`rejected_at`/`rejection_reason` stamped, the reason
defaulting to `"Admin rejected"`.  No employee state is touched. -/
def reject_critical_ticket (w : World) (ticket_id admin_id : String)
    (reason : Option String) (now : String) : World × OpResult :=
  match get_ticket_by_id w.tickets ticket_id with
  | none => (w, .error "Ticket not found")
  | some ticket =>
    if ticket.status ≠ "PENDING_APPROVAL" then
      (w, .error "Ticket is not pending approval")
    else
      let r := updateTicketList w.tickets ticket_id
        (rejectUpdate admin_id now reason)
      if r.2 then
        ({ w with tickets := r.1 }, .success (get_ticket_by_id r.1 ticket_id))
      else (w, .error "Failed to update ticket")

/-- The `updates` dict of the resolve route (`routes.py:482-486`). -/
def resolveUpdate (resolution : Option String) (now : String)
    (t : Ticket) : Ticket :=
  { t with
      status := "RESOLVED"
      resolved_at := some now
      resolution := resolution }

/-- The resolve transition, from the HTTP handler `resolve_ticket`
(`routes.py:465-495`): look the ticket up (404 when missing), build the
`RESOLVED` update, decrement the assigned employee's workload when
`ticket.get("assigned_employee_ID")` is truthy, and apply the update.
There is no check on the ticket's current status. -/
def resolve_ticket (w : World) (ticket_id : String)
    (resolution : Option String) (now : String) : World × OpResult :=
  match get_ticket_by_id w.tickets ticket_id with
  | none => (w, .error "Ticket not found")
  | some ticket =>
    let w1 :=
      match truthy ticket.assigned_employee_ID with
      | some eid => (update_employee_workload w eid (-1)).1
      | none => w
    let r := updateTicketList w1.tickets ticket_id (resolveUpdate resolution now)
    if r.2 then
      ({ w1 with tickets := r.1 }, .success (get_ticket_by_id r.1 ticket_id))
    else (w1, .error "Failed to update ticket")

/-- Strict code-point-wise lexicographic order on character lists,
modelling Python string `<` for the ASCII resource ids the aggregator
sorts. -/
def strLtb : List Char → List Char → Bool
  | [], [] => false
  | [], _ :: _ => true
  | _ :: _, [] => false
  | a :: as, b :: bs => if a = b then strLtb as bs else decide (a < b)

/-- The non-strict order used to model Python's ascending `sorted(...)`
on strings. -/
def strLeB (a b : String) : Bool := !(strLtb b.data a.data)

/-- A log entry, with the fields read by
`get_customer_health_summary` (`log_data.py`). -/
structure LogEntry where
  customer_name : String
  status : String
  resources_affected : List String
  deriving Repr, DecidableEq

/-- Per-customer counters accumulated by `get_customer_health_summary`
(`log_data.py:150-178`). -/
structure CustomerStats where
  customer : String
  total_logs : ℕ
  error_logs : ℕ
  warning_logs : ℕ
  critical_logs : ℕ
  deriving Repr, DecidableEq

/-- Count one log into a customer's counters (`log_data.py:166-178`):
always bump `total_logs`, and bump the counter matching the status
(statuses other than ERROR/WARNING/CRITICAL only count toward the
total). -/
def bumpStats (s : CustomerStats) (status : String) : CustomerStats :=
  let s := { s with total_logs := s.total_logs + 1 }
  if status = "ERROR" then { s with error_logs := s.error_logs + 1 }
  else if status = "WARNING" then { s with warning_logs := s.warning_logs + 1 }
  else if status = "CRITICAL" then { s with critical_logs := s.critical_logs + 1 }
  else s

/-- Fresh zeroed counters for a customer first seen
(`log_data.py:159-165`). -/
def zeroStats (customer : String) : CustomerStats :=
  { customer := customer, total_logs := 0, error_logs := 0,
    warning_logs := 0, critical_logs := 0 }

/-- Fold one log into the per-customer table.  Python's `dict` keeps
first-encounter insertion order, modelled as a list of stats appended on
first sight of a customer and updated in place afterwards. -/
def addLog (acc : List CustomerStats) (log : LogEntry) : List CustomerStats :=
  if acc.any (fun s => s.customer = log.customer_name) then
    acc.map (fun s =>
      if s.customer = log.customer_name then bumpStats s log.status else s)
  else acc ++ [bumpStats (zeroStats log.customer_name) log.status]

/-- The per-customer table of `get_customer_health_summary`, in
first-encounter order. -/
def customerStats (logs : List LogEntry) : List CustomerStats :=
  logs.foldl addLog []

/-- The `critical_resources` set of `get_customer_health_summary`
(`log_data.py:148, 169-178, 215`): every `resources_affected` value of
any ERROR or CRITICAL log, as `sorted(list(set))` — deduplicated and
sorted ascending lexicographically. -/
def critical_resources (logs : List LogEntry) : List String :=
  ((logs.foldl (fun acc log =>
      if log.status = "ERROR" || log.status = "CRITICAL" then
        acc ++ log.resources_affected
      else acc) []).dedup).mergeSort strLeB

/-- One entry of `affected_customers` (`log_data.py:183-205`).
`health_value` is the numeric `health_percent_value` the code computes
and sorts by; the route serialises it as the string
`f"{health_percent_value}%"` before returning. -/
structure CustomerHealth where
  customer : String
  total_logs : ℕ
  error_logs : ℕ
  warning_logs : ℕ
  critical_logs : ℕ
  health_value : ℚ
  deriving Repr, DecidableEq

/-- Health computation per customer (`log_data.py:184-196`):
`ok = total - error - warning - critical` and
`round((ok / total * 100) if total > 0 else 100.0, 2)`. -/
def toHealth (s : CustomerStats) : CustomerHealth :=
  let total : ℚ := s.total_logs
  let ok : ℚ := total - s.error_logs - s.warning_logs - s.critical_logs
  { customer := s.customer
    total_logs := s.total_logs
    error_logs := s.error_logs
    warning_logs := s.warning_logs
    critical_logs := s.critical_logs
    health_value := round2 (if total > 0 then ok / total * 100 else 100) }

/-- The ascending sort key of `affected_customers.sort`
(`log_data.py:207-209`): Python's stable `list.sort(key=...)`, modelled
by a stable `mergeSort`. -/
def healthAsc (a b : CustomerHealth) : Bool := a.health_value ≤ b.health_value

/-- The return value of `get_customer_health_summary`. -/
structure HealthSummary where
  affected_customers : List CustomerHealth
  critical_issues : List String
  deriving Repr, DecidableEq

/-- `get_customer_health_summary` (`log_data.py:130-216`) as a function
of the loaded logs: `None` on no logs, else the per-customer health
entries sorted ascending by health value (worst first, stable) together
with the sorted critical-resource set. -/
def get_customer_health_summary (logs : List LogEntry) : Option HealthSummary :=
  if logs.isEmpty then none
  else some
    { affected_customers := ((customerStats logs).map toHealth).mergeSort healthAsc
      critical_issues := critical_resources logs }

theorem scoreDesc_trans : ∀ (a b c : ℚ × Employee),
    scoreDesc a b = true → scoreDesc b c = true → scoreDesc a c = true := by
  intro a b c hab hbc
  simp only [scoreDesc, decide_eq_true_eq] at *
  exact le_trans hbc hab

theorem scoreDesc_total : ∀ (a b : ℚ × Employee),
    (scoreDesc a b || scoreDesc b a) = true := by
  intro a b
  simp only [scoreDesc, Bool.or_eq_true, decide_eq_true_eq]
  exact le_total b.1 a.1

theorem find?_of_find?_of_imp {α : Type _} {p q : α → Bool} {c : α} :
    ∀ {l : List α}, l.find? p = some c → (∀ x, q x = true → p x = true) →
      q c = true → l.find? q = some c := by
  intro l
  induction l with
  | nil => intro h; simp at h
  | cons a t ih =>
    intro h himp hqc
    by_cases hpa : p a = true
    · rw [List.find?_cons_of_pos _ hpa] at h
      injection h with h
      subst h
      exact List.find?_cons_of_pos _ hqc
    · rw [List.find?_cons_of_neg _ hpa] at h
      have hqa : ¬ q a = true := fun hq => hpa (himp a hq)
      rw [List.find?_cons_of_neg _ hqa]
      exact ih h himp hqc

/-- The head of the stable descending sort is the first element of the
input attaining the maximal key. -/
theorem head?_mergeSort_scoreDesc (xs : List (ℚ × Employee)) :
    (xs.mergeSort scoreDesc).head? =
      xs.find? (fun p => xs.all (fun q => decide (q.1 ≤ p.1))) := by
  induction xs with
  | nil => simp
  | cons a l ih =>
    obtain ⟨l₁, l₂, h₁, h₂, h₃⟩ :=
      List.mergeSort_cons scoreDesc_trans scoreDesc_total a l
    have hsorted := List.sorted_mergeSort scoreDesc_trans scoreDesc_total (a :: l)
    cases l₁ with
    | nil =>
      rw [h₁]
      have hmax : ∀ q ∈ a :: l, q.1 ≤ a.1 := by
        intro q hq
        have hq' : q ∈ List.mergeSort (a :: l) scoreDesc := List.mem_mergeSort.mpr hq
        rw [h₁] at hq' hsorted
        rcases List.mem_cons.mp hq' with h | h
        · subst h; exact le_refl _
        · have := (List.pairwise_cons.mp hsorted).1 q h
          simpa [scoreDesc] using this
      have hpa : (a :: l).all (fun q => decide (q.1 ≤ a.1)) = true := by
        simp only [List.all_eq_true, decide_eq_true_eq]
        exact hmax
      rw [List.find?_cons, hpa]
      simp
    | cons c t =>
      rw [h₁]
      simp only [List.cons_append, List.head?_cons]
      -- head of mergeSort l is c
      have hheadl : (List.mergeSort l scoreDesc).head? = some c := by
        rw [h₂]; rfl
      rw [ih] at hheadl
      have hPl := List.find?_some hheadl
      simp only [List.all_eq_true, decide_eq_true_eq] at hPl
      have hcl : c ∈ l := by
        have : c ∈ List.mergeSort l scoreDesc := by
          rw [h₂]; exact List.mem_cons_self _ _
        exact List.mem_mergeSort.mp this
      have hac : a.1 < c.1 := by
        have := h₃ c (List.mem_cons_self _ _)
        simp only [scoreDesc, Bool.not_eq_true', decide_eq_false_iff_not, not_le] at this
        exact this
      -- the predicate over (a :: l) fails at a
      have hpa : ¬ ((a :: l).all (fun q => decide (q.1 ≤ a.1)) = true) := by
        simp only [List.all_eq_true, decide_eq_true_eq, not_forall]
        exact ⟨c, List.mem_cons_of_mem _ hcl, not_le.mpr hac⟩
      rw [List.find?_cons]
      rw [Bool.not_eq_true] at hpa
      rw [hpa]
      have hPc : ((a :: l).all (fun q => decide (q.1 ≤ c.1))) = true := by
        simp only [List.all_eq_true, decide_eq_true_eq]
        intro q hq
        rcases List.mem_cons.mp hq with h | h
        · subst h; exact le_of_lt hac
        · exact hPl q h
      show some c = _
      refine (find?_of_find?_of_imp
        (q := fun p => (a :: l).all fun x => decide (x.1 ≤ p.1)) hheadl ?_ hPc).symm
      intro x hx
      simp only [List.all_eq_true, decide_eq_true_eq] at hx ⊢
      intro q hq
      exact hx q (List.mem_cons_of_mem _ hq)



theorem all_map_pair (avail : List Employee) (f : Employee → ℚ) (x : ℚ) :
    ((avail.map (fun e => (f e, e))).all (fun q => decide (q.1 ≤ x)))
      = avail.all (fun e2 => decide (f e2 ≤ x)) := by
  induction avail with
  | nil => rfl
  | cons a t ih => simp only [List.map_cons, List.all_cons, ih]

/-- `find_best_employee` returns exactly the first available employee of
maximal score. -/
theorem find_best_employee_eq (employees : List Employee)
    (required_skills : List String) (issue_type specialization : String) :
    find_best_employee employees required_skills issue_type specialization =
      (available_employees employees).find? (fun e =>
        (available_employees employees).all (fun e2 =>
          decide (score_employee e2 required_skills issue_type specialization
            ≤ score_employee e required_skills issue_type specialization))) := by
  unfold find_best_employee
  set avail := available_employees employees with havail
  by_cases h : avail.isEmpty
  · simp only [h, if_true]
    rw [List.isEmpty_iff] at h
    rw [h]
    rfl
  · simp only [h, if_false]
    rw [head?_mergeSort_scoreDesc]
    rw [List.find?_map]
    rw [Option.map_map]
    have hpred : ∀ e : Employee,
        ((fun p : ℚ × Employee => (avail.map (fun e =>
            (score_employee e required_skills issue_type specialization, e))).all
              (fun q => decide (q.1 ≤ p.1))) ∘
          (fun e => (score_employee e required_skills issue_type specialization, e))) e
        = (fun e => avail.all (fun e2 =>
            decide (score_employee e2 required_skills issue_type specialization
              ≤ score_employee e required_skills issue_type specialization))) e := by
      intro e
      simp only [Function.comp]
      exact all_map_pair avail _ _
    rw [funext hpred]
    rcases hfind : avail.find? (fun e => avail.all (fun e2 =>
        decide (score_employee e2 required_skills issue_type specialization
          ≤ score_employee e required_skills issue_type specialization))) with _ | e
    · rfl
    · rfl

theorem round2_mono {x y : ℚ} (h : x ≤ y) : round2 x ≤ round2 y := by
  unfold round2
  have hr : round (x * 100) ≤ round (y * 100) := by
    rw [round_eq, round_eq]
    exact Int.floor_mono (by linarith)
  have : ((round (x * 100) : ℤ) : ℚ) ≤ ((round (y * 100) : ℤ) : ℚ) :=
    Int.cast_le.mpr hr
  exact div_le_div_of_nonneg_right this (by norm_num)

theorem round2_intCast (n : ℤ) : round2 (n : ℚ) = n := by
  unfold round2
  rw [show ((n : ℚ) * 100) = ((n * 100 : ℤ) : ℚ) by push_cast; ring, round_intCast]
  push_cast
  field_simp

theorem round2_nonneg {x : ℚ} (h : 0 ≤ x) : 0 ≤ round2 x := by
  have := round2_mono h
  rwa [show ((0 : ℚ)) = ((0 : ℤ) : ℚ) by norm_num, round2_intCast] at this

theorem round2_le_of_le {x : ℚ} {n : ℤ} (h : x ≤ (n : ℚ)) : round2 x ≤ (n : ℚ) := by
  have := round2_mono h
  rwa [round2_intCast] at this

/-- Splitting a successful `find?` at the first hit. -/
theorem find?_split {α : Type _} {p : α → Bool} :
    ∀ {l : List α} {a : α}, l.find? p = some a →
      ∃ l1 l2, l = l1 ++ a :: l2 ∧ ∀ x ∈ l1, p x = false := by
  intro l
  induction l with
  | nil => intro a h; simp at h
  | cons b t ih =>
    intro a h
    rw [List.find?_cons] at h
    rcases hpb : p b with _ | _
    · rw [hpb] at h
      obtain ⟨l1, l2, hsplit, hfail⟩ := ih h
      exact ⟨b :: l1, l2, by rw [hsplit]; rfl, by
        intro x hx
        rcases List.mem_cons.mp hx with rfl | hx
        · exact hpb
        · exact hfail x hx⟩
    · rw [hpb] at h
      injection h with h
      subst h
      exact ⟨[], t, rfl, by intro x hx; simp at hx⟩

/-- `updateWorkloadList` rewrites exactly the first employee carrying
the id and leaves every other record untouched. -/
theorem updateWorkloadList_split {l1 l2 : List Employee} {e : Employee}
    (id : String) (inc : ℚ) (hfail : ∀ x ∈ l1, x.employee_id ≠ id)
    (hid : e.employee_id = id) :
    updateWorkloadList (l1 ++ e :: l2) id inc =
      (l1 ++ { e with current_workload := max 0 (e.current_workload + inc) } :: l2,
        true) := by
  induction l1 with
  | nil =>
    simp [updateWorkloadList, hid]
  | cons b t ih =>
    have hb : b.employee_id ≠ id := hfail b (List.mem_cons_self _ _)
    simp only [List.cons_append, updateWorkloadList, if_neg hb, List.append_eq]
    rw [ih (fun x hx => hfail x (List.mem_cons_of_mem _ hx))]

/-- `updateTicketList` rewrites exactly the first ticket carrying the id
and leaves every other record untouched. -/
theorem updateTicketList_split {l1 l2 : List Ticket} {t : Ticket}
    (id : String) (upd : Ticket → Ticket)
    (hfail : ∀ x ∈ l1, x.ticket_id ≠ id) (hid : t.ticket_id = id) :
    updateTicketList (l1 ++ t :: l2) id upd = (l1 ++ upd t :: l2, true) := by
  induction l1 with
  | nil =>
    simp [updateTicketList, hid]
  | cons b t' ih =>
    have hb : b.ticket_id ≠ id := hfail b (List.mem_cons_self _ _)
    simp only [List.cons_append, updateTicketList, if_neg hb, List.append_eq]
    rw [ih (fun x hx => hfail x (List.mem_cons_of_mem _ hx))]

theorem get_ticket_by_id_append {l1 l2 : List Ticket} {t : Ticket} {id : String}
    (hfail : ∀ x ∈ l1, x.ticket_id ≠ id) (hid : t.ticket_id = id) :
    get_ticket_by_id (l1 ++ t :: l2) id = some t := by
  unfold get_ticket_by_id
  induction l1 with
  | nil => simp [List.find?_cons, hid]
  | cons b t' ih =>
    have hb : b.ticket_id ≠ id := hfail b (List.mem_cons_self _ _)
    simp only [List.cons_append, List.find?_cons]
    have hdec : decide (b.ticket_id = id) = false := by simpa using hb
    rw [hdec]
    exact ih (fun x hx => hfail x (List.mem_cons_of_mem _ hx))

theorem skillComponent_bounds (e : Employee) (R : List String) :
    0 ≤ skillComponent e R ∧ skillComponent e R ≤ 40 := by
  unfold skillComponent
  by_cases h : R.toFinset.Nonempty
  · simp only [h, if_true]
    have hpos : (0 : ℚ) < R.toFinset.card := by
      exact_mod_cast Finset.card_pos.mpr h
    have hle : (e.skills.toFinset ∩ R.toFinset).card ≤ R.toFinset.card :=
      Finset.card_le_card (Finset.inter_subset_right)
    constructor
    · positivity
    · have hratio : ((e.skills.toFinset ∩ R.toFinset).card : ℚ) / R.toFinset.card ≤ 1 := by
        rw [div_le_one hpos]
        exact_mod_cast hle
      nlinarith
  · simp only [h, if_false]
    norm_num

theorem experienceComponent_bounds (e : Employee) :
    5 ≤ experienceComponent e ∧ experienceComponent e ≤ 25 := by
  unfold experienceComponent experience_scores
  split_ifs <;> norm_num

theorem workloadComponent_bounds (e : Employee)
    (h0 : 0 ≤ e.current_workload) (h1 : e.current_workload ≤ e.max_workload) :
    0 ≤ workloadComponent e ∧ workloadComponent e ≤ 20 := by
  unfold workloadComponent
  by_cases h : e.max_workload > 0
  · simp only [h, if_true]
    have hr0 : 0 ≤ e.current_workload / e.max_workload := by positivity
    have hr1 : e.current_workload / e.max_workload ≤ 1 := by
      rw [div_le_one h]; exact h1
    constructor <;> nlinarith
  · simp only [h, if_false]
    norm_num

theorem specializationComponent_bounds (e : Employee) (sp : String) :
    0 ≤ specializationComponent e sp ∧ specializationComponent e sp ≤ 15 := by
  unfold specializationComponent
  dsimp only
  split_ifs <;> norm_num

def E1 : Employee :=
  { employee_id := "E1", name := "E1", skills := ["AWS", "DevOps"],
    specializations := ["performance"], experience_level := "senior",
    availability_status := "available", current_workload := 0, max_workload := 5 }

/-- C6: the score is the 2-decimal rounding of the sum of the four
weighted components (skill 40 / experience 25 / workload-headroom 20 /
specialization 15, with the documented edge cases), is bounded in
[0, 100] for any employee satisfying the workload invariant
`0 ≤ current ≤ max`, and the E1 scenario scores exactly 100.00. -/
theorem score_employee_spec :
    (∀ (e : Employee) (R : List String) (it sp : String),
      score_employee e R it sp
        = round2 (skillComponent e R + experienceComponent e
            + workloadComponent e + specializationComponent e sp)) ∧
    (∀ (e : Employee), skillComponent e [] = 40) ∧
    (∀ (lvl : String), lvl ≠ "senior" → lvl ≠ "mid" → lvl ≠ "junior" →
      lvl ≠ "entry" → experience_scores lvl = 10) ∧
    (∀ (e : Employee), e.max_workload = 0 → workloadComponent e = 20) ∧
    (∀ (e : Employee) (sp : String), e.specializations = [] →
      specializationComponent e sp = 0) ∧
    (∀ (e : Employee) (R : List String) (it sp : String),
      0 ≤ e.current_workload → e.current_workload ≤ e.max_workload →
      0 ≤ score_employee e R it sp ∧ score_employee e R it sp ≤ 100) ∧
    score_employee E1 ["AWS", "DevOps"] "cpu_spike" "performance" = 100 := by
  refine ⟨fun e R it sp => rfl, fun e => rfl, ?_, ?_, ?_, ?_, ?_⟩
  · intro lvl h1 h2 h3 h4
    unfold experience_scores
    simp [h1, h2, h3, h4]
  · intro e h
    unfold workloadComponent
    rw [h]
    norm_num
  · intro e sp h
    unfold specializationComponent
    simp [h]
  · intro e R it sp h0 h1
    obtain ⟨s0, s1⟩ := skillComponent_bounds e R
    obtain ⟨x0, x1⟩ := experienceComponent_bounds e
    obtain ⟨w0, w1⟩ := workloadComponent_bounds e h0 h1
    obtain ⟨p0, p1⟩ := specializationComponent_bounds e sp
    unfold score_employee
    constructor
    · exact round2_nonneg (by linarith)
    · have := round2_le_of_le (x := skillComponent e R + experienceComponent e
        + workloadComponent e + specializationComponent e sp) (n := 100)
        (by push_cast; linarith)
      simpa using this
  · simp [score_employee, skillComponent, experienceComponent, workloadComponent,
      specializationComponent, experience_scores, strLower, round2, E1]
    norm_num [round_eq]

/-- C7: with all other factors fixed, enlarging the overlap between an
employee's skill set and a fixed non-empty `required_skills` never
lowers the score. -/
theorem score_employee_skill_monotone (e : Employee) (s1 s2 : List String)
    (R : List String) (it sp : String) (hR : R ≠ [])
    (hsub : s1.toFinset ∩ R.toFinset ⊆ s2.toFinset ∩ R.toFinset) :
    score_employee { e with skills := s1 } R it sp
      ≤ score_employee { e with skills := s2 } R it sp := by
  have hcard : (s1.toFinset ∩ R.toFinset).card ≤ (s2.toFinset ∩ R.toFinset).card :=
    Finset.card_le_card hsub
  have hRne : R.toFinset.Nonempty := by
    obtain ⟨x, hx⟩ := List.exists_mem_of_ne_nil R hR
    exact ⟨x, List.mem_toFinset.mpr hx⟩
  have hpos : (0 : ℚ) < R.toFinset.card := by
    exact_mod_cast Finset.card_pos.mpr hRne
  have hskill : skillComponent { e with skills := s1 } R
      ≤ skillComponent { e with skills := s2 } R := by
    unfold skillComponent
    simp only [hRne, if_true]
    have : ((s1.toFinset ∩ R.toFinset).card : ℚ) ≤ (s2.toFinset ∩ R.toFinset).card := by
      exact_mod_cast hcard
    have hdiv : ((s1.toFinset ∩ R.toFinset).card : ℚ) / R.toFinset.card
        ≤ ((s2.toFinset ∩ R.toFinset).card : ℚ) / R.toFinset.card :=
      div_le_div_of_nonneg_right this hpos.le
    nlinarith
  unfold score_employee
  apply round2_mono
  have hx : experienceComponent { e with skills := s1 } = experienceComponent { e with skills := s2 } := rfl
  have hw : workloadComponent { e with skills := s1 } = workloadComponent { e with skills := s2 } := rfl
  have hp : specializationComponent { e with skills := s1 } sp = specializationComponent { e with skills := s2 } sp := rfl
  rw [hx, hw, hp]
  linarith

/-- C8: the selector draws from exactly the availability-filtered list,
returns `none` iff that list is empty, and otherwise returns the first
candidate (in store order) of maximal score — the head of the stable
descending sort.  The selector is a pure function of the employee list:
no `World` transition is involved. -/
theorem find_best_employee_spec (employees : List Employee)
    (R : List String) (it sp : String) :
    (find_best_employee employees R it sp = none
      ↔ available_employees employees = []) ∧
    (∀ e, find_best_employee employees R it sp = some e →
      e ∈ available_employees employees ∧
      (∀ e2 ∈ available_employees employees,
        score_employee e2 R it sp ≤ score_employee e R it sp)) ∧
    find_best_employee employees R it sp
      = (available_employees employees).find? (fun e =>
          (available_employees employees).all (fun e2 =>
            decide (score_employee e2 R it sp ≤ score_employee e R it sp))) := by
  refine ⟨?_, ?_, find_best_employee_eq employees R it sp⟩
  · by_cases h : (available_employees employees).isEmpty
    · constructor
      · intro _; exact List.isEmpty_iff.mp h
      · intro _; simp [find_best_employee, h]
    · have hne : available_employees employees ≠ [] := by
        rw [Bool.not_eq_true] at h
        exact List.isEmpty_eq_false.mp h
      constructor
      · intro hnone
        exfalso
        unfold find_best_employee at hnone
        rw [if_neg (by simpa using h)] at hnone
        rw [Option.map_eq_none', List.head?_eq_none_iff] at hnone
        have hlen := congrArg List.length hnone
        rw [List.length_mergeSort, List.length_map] at hlen
        exact hne (List.length_eq_zero.mp hlen)
      · intro h'
        exact absurd h' hne
  · intro e hsome
    rw [find_best_employee_eq] at hsome
    refine ⟨List.mem_of_find?_eq_some hsome, ?_⟩
    have := List.find?_some hsome
    simp only [List.all_eq_true, decide_eq_true_eq] at this
    exact this

theorem find_best_employee_spec_witness :
    E1 ∈ available_employees [E1] ∧
    (∀ e2 ∈ available_employees [E1],
      score_employee e2 ["AWS"] "cpu_spike" "performance"
        ≤ score_employee E1 ["AWS"] "cpu_spike" "performance") :=
  (find_best_employee_spec [E1] ["AWS"] "cpu_spike" "performance").2.1 E1 (by
    rw [find_best_employee_eq]
    simp [available_employees, availabilityFilter, E1, strLower])

/-- Under distinct employee ids, the first-match workload update is the
pointwise update of the unique matching employee. -/
theorem updateWorkloadList_nodup (l : List Employee) (eid : String) (inc : ℚ)
    (hnd : (l.map Employee.employee_id).Nodup) :
    (updateWorkloadList l eid inc).1
      = l.map (fun x => if x.employee_id = eid then
          { x with current_workload := max 0 (x.current_workload + inc) }
        else x) := by
  induction l with
  | nil => rfl
  | cons e t ih =>
    rw [List.map_cons, List.nodup_cons] at hnd
    obtain ⟨hmem, hnd'⟩ := hnd
    by_cases h : e.employee_id = eid
    · simp only [updateWorkloadList, if_pos h, List.map_cons]
      have ht : t.map (fun x => if x.employee_id = eid then
          { x with current_workload := max 0 (x.current_workload + inc) }
        else x) = t.map id := by
        apply List.map_congr_left
        intro x hx
        have : x.employee_id ≠ eid := by
          intro hxid
          exact hmem (by
            rw [h, ← hxid]
            exact List.mem_map_of_mem Employee.employee_id hx)
        simp [this]
      rw [ht, List.map_id]
    · simp only [updateWorkloadList, if_neg h, List.map_cons]
      rw [ih hnd']

def A0 : CreateArgs :=
  { tid := "TCKT_1", now := "2026-01-01T00:00:00Z", issue := "cpu at 99%",
    resource_id := "res_vm_001", issue_type := "cpu_spike" }

/-- C2: a creation whose normalised severity is CRITICAL persists a
`PENDING_APPROVAL` ticket whose `suggested_employee_id` is the
best-scoring available employee's id (or `none` when no candidate is
available) and leaves every employee record — in particular every
workload — unchanged. -/
theorem create_critical_spec (w : World) (a : CreateArgs)
    (severity : Option String) (hsev : severityUpper severity = "CRITICAL") :
    ((create_ticket_from_issue w a severity).1.employees = w.employees) ∧
    (∃ t, (create_ticket_from_issue w a severity).2 = some t ∧
      (create_ticket_from_issue w a severity).1.tickets = w.tickets ++ [t] ∧
      t.status = "PENDING_APPROVAL" ∧
      t.severity = "CRITICAL" ∧
      (available_employees w.employees = [] → t.suggested_employee_id = none) ∧
      (available_employees w.employees ≠ [] →
        ∃ e, find_best_employee w.employees
            (determine_required_skills a.issue_type "CRITICAL") a.issue_type
            (determine_specialization a.issue_type) = some e ∧
          t.suggested_employee_id = some e.employee_id) ∧
      (∀ eid, t.suggested_employee_id = some eid →
        ∃ e ∈ available_employees w.employees, e.employee_id = eid ∧
          ∀ e2 ∈ available_employees w.employees,
            score_employee e2 (determine_required_skills a.issue_type "CRITICAL")
                a.issue_type (determine_specialization a.issue_type)
              ≤ score_employee e (determine_required_skills a.issue_type "CRITICAL")
                a.issue_type (determine_specialization a.issue_type))) := by
  have hdisp : create_ticket_from_issue w a severity
      = create_critical_ticket w a "CRITICAL" := by
    unfold create_ticket_from_issue
    rw [hsev]
    simp
  rw [hdisp]
  refine ⟨rfl, ?_⟩
  refine ⟨_, rfl, rfl, rfl, rfl, ?_, ?_, ?_⟩
  · intro hempty
    have hnone := (find_best_employee_spec w.employees
      (determine_required_skills a.issue_type "CRITICAL") a.issue_type
      (determine_specialization a.issue_type)).1.mpr hempty
    simp only [create_critical_ticket, hnone, Option.map_none']
    rfl
  · intro hne
    rcases hfind : find_best_employee w.employees
        (determine_required_skills a.issue_type "CRITICAL") a.issue_type
        (determine_specialization a.issue_type) with _ | e
    · exact absurd ((find_best_employee_spec w.employees
        (determine_required_skills a.issue_type "CRITICAL") a.issue_type
        (determine_specialization a.issue_type)).1.mp hfind) hne
    · exact ⟨e, rfl, rfl⟩
  · intro eid hsome
    simp only [create_critical_ticket, pendingTicket] at hsome
    rcases hfind : find_best_employee w.employees
        (determine_required_skills a.issue_type "CRITICAL") a.issue_type
        (determine_specialization a.issue_type) with _ | e
    · rw [hfind] at hsome; simp at hsome
    · rw [hfind] at hsome
      simp only [Option.map_some', Option.some.injEq] at hsome
      obtain ⟨hmem, hmax⟩ := (find_best_employee_spec w.employees
        (determine_required_skills a.issue_type "CRITICAL") a.issue_type
        (determine_specialization a.issue_type)).2.1 e hfind
      exact ⟨e, hmem, hsome, hmax⟩

theorem create_critical_spec_witness :
    severityUpper (some "critical") = "CRITICAL" ∧
    available_employees [E1] ≠ [] ∧
    ∃ t, (create_ticket_from_issue ⟨[E1], []⟩ A0 (some "critical")).2 = some t ∧
      t.status = "PENDING_APPROVAL" ∧
      (create_ticket_from_issue ⟨[E1], []⟩ A0 (some "critical")).1.employees = [E1] ∧
      ∃ e, t.suggested_employee_id = some e.employee_id ∧
        e ∈ available_employees [E1] ∧
        ∀ e2 ∈ available_employees [E1],
          score_employee e2 (determine_required_skills "cpu_spike" "CRITICAL")
              "cpu_spike" (determine_specialization "cpu_spike")
            ≤ score_employee e (determine_required_skills "cpu_spike" "CRITICAL")
              "cpu_spike" (determine_specialization "cpu_spike") := by
  have hne : available_employees [E1] ≠ [] := by
    simp [available_employees, availabilityFilter, E1, strLower]
  obtain ⟨hemps, t, hsome, -, hstat, -, -, hnonempty, hforall⟩ :=
    create_critical_spec ⟨[E1], []⟩ A0 (some "critical") (by decide)
  obtain ⟨e, -, hsugg⟩ := hnonempty hne
  obtain ⟨e', hmem, heid, hmax⟩ := hforall e.employee_id hsugg
  exact ⟨by decide, hne, t, hsome, hstat, hemps, e',
    by rw [hsugg, heid], hmem, hmax⟩

/-- C3: a creation whose normalised severity is not CRITICAL either
commits the selected employee — persisting an `ASSIGNED` ticket carrying
that employee's id and `assigned_at`, and incrementing exactly that
employee's workload by exactly 1 — or, when no employee is available,
persists an unassigned `OPEN` ticket and changes no employee record. -/
theorem create_non_critical_spec (w : World) (a : CreateArgs)
    (severity : Option String) (hsev : severityUpper severity ≠ "CRITICAL")
    (hw : ∀ e ∈ w.employees, 0 ≤ e.current_workload)
    (hnd : (w.employees.map Employee.employee_id).Nodup) :
    (available_employees w.employees = [] →
      ∃ t, create_ticket_from_issue w a severity
          = ({ employees := w.employees, tickets := w.tickets ++ [t] }, some t) ∧
        t.status = "OPEN" ∧ t.severity = severityUpper severity ∧
        t.assigned_employee_ID = none ∧ t.assigned_at = none) ∧
    (available_employees w.employees ≠ [] →
      ∃ e t, find_best_employee w.employees
          (determine_required_skills a.issue_type (severityUpper severity))
          a.issue_type (determine_specialization a.issue_type) = some e ∧
        create_ticket_from_issue w a severity
          = ({ employees := w.employees.map (fun x =>
                if x.employee_id = e.employee_id then
                  { x with current_workload := x.current_workload + 1 }
                else x),
               tickets := w.tickets ++ [t] }, some t) ∧
        t.status = "ASSIGNED" ∧ t.severity = severityUpper severity ∧
        t.assigned_employee_ID = some e.employee_id ∧
        t.assigned_at = some a.now) := by
  have hdisp : create_ticket_from_issue w a severity
      = create_non_critical_ticket w a (severityUpper severity) := by
    unfold create_ticket_from_issue
    rw [if_neg hsev]
  rw [hdisp]
  constructor
  · intro hempty
    have hnone := (find_best_employee_spec w.employees
      (determine_required_skills a.issue_type (severityUpper severity)) a.issue_type
      (determine_specialization a.issue_type)).1.mpr hempty
    refine ⟨openTicket a (severityUpper severity), ?_, rfl, rfl, rfl, rfl⟩
    simp only [create_non_critical_ticket, hnone]
  · intro hne2
    rcases hfind : find_best_employee w.employees
        (determine_required_skills a.issue_type (severityUpper severity)) a.issue_type
        (determine_specialization a.issue_type) with _ | e
    · exact absurd ((find_best_employee_spec w.employees
        (determine_required_skills a.issue_type (severityUpper severity)) a.issue_type
        (determine_specialization a.issue_type)).1.mp hfind) hne2
    · refine ⟨e, assignedTicket a (severityUpper severity) e.employee_id,
        rfl, ?_, rfl, rfl, rfl, rfl⟩
      simp only [create_non_critical_ticket, hfind]
      have hupd : (update_employee_workload w e.employee_id 1).1.employees
          = w.employees.map (fun x =>
              if x.employee_id = e.employee_id then
                { x with current_workload := x.current_workload + 1 }
              else x) := by
        show (updateWorkloadList w.employees e.employee_id 1).1 = _
        rw [updateWorkloadList_nodup w.employees e.employee_id 1 hnd]
        apply List.map_congr_left
        intro x hx
        by_cases hxe : x.employee_id = e.employee_id
        · rw [if_pos hxe, if_pos hxe]
          have h0 := hw x hx
          have hmax : max 0 (x.current_workload + 1) = x.current_workload + 1 :=
            max_eq_right (by linarith)
          rw [hmax]
        · rw [if_neg hxe, if_neg hxe]
      rw [Prod.mk.injEq, World.mk.injEq]
      exact ⟨⟨hupd, rfl⟩, rfl⟩

theorem create_non_critical_spec_witness :
    ∃ e t, find_best_employee [E1]
        (determine_required_skills "cpu_spike" (severityUpper (some "HIGH")))
        "cpu_spike" (determine_specialization "cpu_spike") = some e ∧
      create_ticket_from_issue ⟨[E1], []⟩ A0 (some "HIGH")
        = ({ employees := [E1].map (fun x =>
              if x.employee_id = e.employee_id then
                { x with current_workload := x.current_workload + 1 }
              else x),
             tickets := [] ++ [t] }, some t) ∧
      t.status = "ASSIGNED" ∧ t.severity = severityUpper (some "HIGH") ∧
      t.assigned_employee_ID = some e.employee_id ∧
      t.assigned_at = some A0.now :=
  (create_non_critical_spec ⟨[E1], []⟩ A0 (some "HIGH")
    (by decide)
    (by intro e he; simp only [List.mem_singleton] at he; subst he; norm_num [E1])
    (by simp [E1])).2
    (by simp [available_employees, availabilityFilter, E1, strLower])

/-- With nonnegative workloads and distinct ids, a workload increment of
1 adds exactly 1 to the unique matching employee (the floor at 0 cannot
fire). -/
theorem updateWorkloadList_incr (l : List Employee) (eid : String)
    (hw : ∀ e ∈ l, 0 ≤ e.current_workload)
    (hnd : (l.map Employee.employee_id).Nodup) :
    (updateWorkloadList l eid 1).1
      = l.map (fun x => if x.employee_id = eid then
          { x with current_workload := x.current_workload + 1 }
        else x) := by
  rw [updateWorkloadList_nodup l eid 1 hnd]
  apply List.map_congr_left
  intro x hx
  by_cases hxe : x.employee_id = eid
  · rw [if_pos hxe, if_pos hxe]
    have h0 := hw x hx
    have hmax : max 0 (x.current_workload + 1) = x.current_workload + 1 :=
      max_eq_right (by linarith)
    rw [hmax]
  · rw [if_neg hxe, if_neg hxe]

/-- C4: `approve` succeeds only from `PENDING_APPROVAL` and fails closed
— without touching any employee or ticket — when the ticket is missing,
not pending, has no resolvable assignment target, or names an unknown
employee; on success it increments exactly the target employee's
workload by 1 and rewrites exactly the target ticket to `ASSIGNED` with
`approved_by`/`approved_at`/`assigned_at` stamped. -/
theorem approve_critical_ticket_spec (w : World) (tid admin_id : String)
    (employee_id : Option String) (now : String) :
    (get_ticket_by_id w.tickets tid = none →
      approve_critical_ticket w tid admin_id employee_id now
        = (w, .error "Ticket not found")) ∧
    (∀ t, get_ticket_by_id w.tickets tid = some t →
      t.status ≠ "PENDING_APPROVAL" →
      approve_critical_ticket w tid admin_id employee_id now
        = (w, .error "Ticket is not pending approval")) ∧
    (∀ t, get_ticket_by_id w.tickets tid = some t →
      t.status = "PENDING_APPROVAL" →
      truthy (pyOrOpt employee_id t.suggested_employee_id) = none →
      approve_critical_ticket w tid admin_id employee_id now
        = (w, .error "No employee specified for assignment")) ∧
    (∀ t eid, get_ticket_by_id w.tickets tid = some t →
      t.status = "PENDING_APPROVAL" →
      truthy (pyOrOpt employee_id t.suggested_employee_id) = some eid →
      get_employee_by_id w.employees eid = none →
      approve_critical_ticket w tid admin_id employee_id now
        = (w, .error "Employee not found")) ∧
    (∀ t eid emp, get_ticket_by_id w.tickets tid = some t →
      t.status = "PENDING_APPROVAL" →
      truthy (pyOrOpt employee_id t.suggested_employee_id) = some eid →
      get_employee_by_id w.employees eid = some emp →
      (∀ e ∈ w.employees, 0 ≤ e.current_workload) →
      (w.employees.map Employee.employee_id).Nodup →
      ∃ l1 l2, w.tickets = l1 ++ t :: l2 ∧ (∀ x ∈ l1, x.ticket_id ≠ tid) ∧
        approve_critical_ticket w tid admin_id employee_id now
          = ({ employees := w.employees.map (fun x =>
                if x.employee_id = eid then
                  { x with current_workload := x.current_workload + 1 }
                else x),
               tickets := l1 ++ approveUpdate eid admin_id now t :: l2 },
             .success (some (approveUpdate eid admin_id now t))) ∧
        (approveUpdate eid admin_id now t).status = "ASSIGNED" ∧
        (approveUpdate eid admin_id now t).assigned_employee_ID = some eid ∧
        (approveUpdate eid admin_id now t).assigned_at = some now ∧
        (approveUpdate eid admin_id now t).approved_by = some admin_id ∧
        (approveUpdate eid admin_id now t).approved_at = some now) := by
  refine ⟨?_, ?_, ?_, ?_, ?_⟩
  · intro hnone
    unfold approve_critical_ticket
    rw [hnone]
  · intro t hget hstat
    unfold approve_critical_ticket
    rw [hget]
    simp only [if_pos hstat]
  · intro t hget hstat htarget
    unfold approve_critical_ticket
    rw [hget]
    simp only [ne_eq, hstat, not_true_eq_false, if_false, htarget]
  · intro t eid hget hstat htarget hemp
    unfold approve_critical_ticket
    rw [hget]
    simp only [ne_eq, hstat, not_true_eq_false, if_false, htarget, hemp]
  · intro t eid emp hget hstat htarget hemp hw hnd
    obtain ⟨l1, l2, hsplit, hfail⟩ := find?_split hget
    have hfail' : ∀ x ∈ l1, x.ticket_id ≠ tid := by
      intro x hx
      have := hfail x hx
      simpa using this
    have htid : t.ticket_id = tid := by
      have := List.find?_some hget
      simpa using this
    refine ⟨l1, l2, hsplit, hfail', ?_, rfl, rfl, rfl, rfl, rfl⟩
    unfold approve_critical_ticket
    rw [hget]
    have hwl : (update_employee_workload w eid 1).1
        = { w with employees := w.employees.map (fun x =>
              if x.employee_id = eid then
                { x with current_workload := x.current_workload + 1 }
              else x) } := by
      unfold update_employee_workload
      rw [World.mk.injEq]
      exact ⟨updateWorkloadList_incr w.employees eid hw hnd, rfl⟩
    have hticks : updateTicketList w.tickets tid (approveUpdate eid admin_id now)
        = (l1 ++ approveUpdate eid admin_id now t :: l2, true) := by
      rw [hsplit]
      exact updateTicketList_split tid _ hfail' htid
    have hget' : get_ticket_by_id (l1 ++ approveUpdate eid admin_id now t :: l2) tid
        = some (approveUpdate eid admin_id now t) :=
      get_ticket_by_id_append hfail' htid
    simp only [ne_eq, hstat, not_true_eq_false, if_false, htarget, hemp,
      hwl, hticks, hget', if_true]

def T0 : Ticket := pendingTicket A0 "CRITICAL" (some "E1")

theorem approve_critical_ticket_spec_witness :
    ∃ l1 l2, (World.mk [E1] [T0]).tickets = l1 ++ T0 :: l2 ∧
      (∀ x ∈ l1, x.ticket_id ≠ "TCKT_1") ∧
      approve_critical_ticket (World.mk [E1] [T0]) "TCKT_1" "ADMIN1" none "t1"
        = ({ employees := [E1].map (fun x =>
              if x.employee_id = "E1" then
                { x with current_workload := x.current_workload + 1 }
              else x),
             tickets := l1 ++ approveUpdate "E1" "ADMIN1" "t1" T0 :: l2 },
           .success (some (approveUpdate "E1" "ADMIN1" "t1" T0))) ∧
      (approveUpdate "E1" "ADMIN1" "t1" T0).status = "ASSIGNED" ∧
      (approveUpdate "E1" "ADMIN1" "t1" T0).assigned_employee_ID = some "E1" ∧
      (approveUpdate "E1" "ADMIN1" "t1" T0).assigned_at = some "t1" ∧
      (approveUpdate "E1" "ADMIN1" "t1" T0).approved_by = some "ADMIN1" ∧
      (approveUpdate "E1" "ADMIN1" "t1" T0).approved_at = some "t1" :=
  (approve_critical_ticket_spec (World.mk [E1] [T0]) "TCKT_1" "ADMIN1" none "t1").2.2.2.2
    T0 "E1" E1 rfl rfl rfl rfl
    (by intro e he; simp only [List.mem_singleton] at he; subst he; norm_num [E1])
    (by simp [E1])

/-- C5: `reject` succeeds only from `PENDING_APPROVAL`, failing closed
without mutation from any other status; on success it rewrites exactly
the target ticket to `REJECTED` with `rejected_by`/`rejected_at` stamped
and `rejection_reason` defaulting to "Admin rejected", and no employee
record — in particular no workload — changes. -/
theorem reject_critical_ticket_spec (w : World) (tid admin_id : String)
    (reason : Option String) (now : String) :
    (get_ticket_by_id w.tickets tid = none →
      reject_critical_ticket w tid admin_id reason now
        = (w, .error "Ticket not found")) ∧
    (∀ t, get_ticket_by_id w.tickets tid = some t →
      t.status ≠ "PENDING_APPROVAL" →
      reject_critical_ticket w tid admin_id reason now
        = (w, .error "Ticket is not pending approval")) ∧
    ((reject_critical_ticket w tid admin_id reason now).1.employees
      = w.employees) ∧
    (∀ t, get_ticket_by_id w.tickets tid = some t →
      t.status = "PENDING_APPROVAL" →
      ∃ l1 l2, w.tickets = l1 ++ t :: l2 ∧ (∀ x ∈ l1, x.ticket_id ≠ tid) ∧
        reject_critical_ticket w tid admin_id reason now
          = ({ employees := w.employees,
               tickets := l1 ++ rejectUpdate admin_id now reason t :: l2 },
             .success (some (rejectUpdate admin_id now reason t))) ∧
        (rejectUpdate admin_id now reason t).status = "REJECTED" ∧
        (rejectUpdate admin_id now reason t).rejected_by = some admin_id ∧
        (rejectUpdate admin_id now reason t).rejected_at = some now ∧
        (rejectUpdate admin_id now reason t).rejection_reason
          = some (pyOrStr reason "Admin rejected") ∧
        (reason = none →
          (rejectUpdate admin_id now reason t).rejection_reason
            = some "Admin rejected")) := by
  refine ⟨?_, ?_, ?_, ?_⟩
  · intro hnone
    unfold reject_critical_ticket
    rw [hnone]
  · intro t hget hstat
    unfold reject_critical_ticket
    rw [hget]
    simp only [ne_eq, if_pos hstat]
  · unfold reject_critical_ticket
    rcases hget : get_ticket_by_id w.tickets tid with _ | t
    · rfl
    · by_cases hstat : t.status = "PENDING_APPROVAL"
      · obtain ⟨l1, l2, hsplit, hfail⟩ := find?_split hget
        have hfail' : ∀ x ∈ l1, x.ticket_id ≠ tid := by
          intro x hx
          simpa using hfail x hx
        have htid : t.ticket_id = tid := by
          simpa using List.find?_some hget
        have hticks : updateTicketList w.tickets tid (rejectUpdate admin_id now reason)
            = (l1 ++ rejectUpdate admin_id now reason t :: l2, true) := by
          rw [hsplit]
          exact updateTicketList_split tid _ hfail' htid
        simp only [ne_eq, hstat, not_true_eq_false, if_false, hticks, if_true]
      · simp only [ne_eq, if_pos hstat]
  · intro t hget hstat
    obtain ⟨l1, l2, hsplit, hfail⟩ := find?_split hget
    have hfail' : ∀ x ∈ l1, x.ticket_id ≠ tid := by
      intro x hx
      simpa using hfail x hx
    have htid : t.ticket_id = tid := by
      simpa using List.find?_some hget
    have hticks : updateTicketList w.tickets tid (rejectUpdate admin_id now reason)
        = (l1 ++ rejectUpdate admin_id now reason t :: l2, true) := by
      rw [hsplit]
      exact updateTicketList_split tid _ hfail' htid
    have hget' : get_ticket_by_id (l1 ++ rejectUpdate admin_id now reason t :: l2) tid
        = some (rejectUpdate admin_id now reason t) :=
      get_ticket_by_id_append hfail' htid
    refine ⟨l1, l2, hsplit, hfail', ?_, rfl, rfl, rfl, rfl, ?_⟩
    · unfold reject_critical_ticket
      rw [hget]
      simp only [ne_eq, hstat, not_true_eq_false, if_false, hticks, hget', if_true]
    · intro hreason
      subst hreason
      rfl

theorem reject_critical_ticket_spec_witness :
    ∃ l1 l2, (World.mk [E1] [T0]).tickets = l1 ++ T0 :: l2 ∧
      (∀ x ∈ l1, x.ticket_id ≠ "TCKT_1") ∧
      reject_critical_ticket (World.mk [E1] [T0]) "TCKT_1" "ADMIN1" none "t1"
        = ({ employees := [E1],
             tickets := l1 ++ rejectUpdate "ADMIN1" "t1" none T0 :: l2 },
           .success (some (rejectUpdate "ADMIN1" "t1" none T0))) ∧
      (rejectUpdate "ADMIN1" "t1" none T0).status = "REJECTED" ∧
      (rejectUpdate "ADMIN1" "t1" none T0).rejected_by = some "ADMIN1" ∧
      (rejectUpdate "ADMIN1" "t1" none T0).rejected_at = some "t1" ∧
      (rejectUpdate "ADMIN1" "t1" none T0).rejection_reason
        = some (pyOrStr none "Admin rejected") ∧
      (none = (none : Option String) →
        (rejectUpdate "ADMIN1" "t1" none T0).rejection_reason
          = some "Admin rejected") :=
  (reject_critical_ticket_spec (World.mk [E1] [T0]) "TCKT_1" "ADMIN1" none "t1").2.2.2
    T0 rfl rfl

/-- C1 (amended): what the resolve route actually does.  For any ticket
found — its current status is never inspected — resolve succeeds,
rewrites exactly that ticket to `RESOLVED` stamping
`resolved_at`/`resolution`, and, when the ticket carries an assigned
employee, decrements that employee's workload by 1 floored at 0 (so an
`ASSIGNED` ticket's employee goes from `c` to `max 0 (c - 1)`, and a
second resolve of the same ticket succeeds again and decrements
again). -/
theorem resolve_ticket_spec (w : World) (tid : String)
    (resolution : Option String) (now : String) :
    (get_ticket_by_id w.tickets tid = none →
      resolve_ticket w tid resolution now = (w, .error "Ticket not found")) ∧
    (∀ t, get_ticket_by_id w.tickets tid = some t →
      ∃ l1 l2 emps, w.tickets = l1 ++ t :: l2 ∧ (∀ x ∈ l1, x.ticket_id ≠ tid) ∧
        resolve_ticket w tid resolution now
          = ({ employees := emps,
               tickets := l1 ++ resolveUpdate resolution now t :: l2 },
             .success (some (resolveUpdate resolution now t))) ∧
        (truthy t.assigned_employee_ID = none → emps = w.employees) ∧
        (∀ eid, truthy t.assigned_employee_ID = some eid →
          (w.employees.map Employee.employee_id).Nodup →
          emps = w.employees.map (fun x =>
            if x.employee_id = eid then
              { x with current_workload := max 0 (x.current_workload - 1) }
            else x)) ∧
        (resolveUpdate resolution now t).status = "RESOLVED" ∧
        (resolveUpdate resolution now t).resolved_at = some now ∧
        (resolveUpdate resolution now t).resolution = resolution) := by
  constructor
  · intro hnone
    unfold resolve_ticket
    rw [hnone]
  · intro t hget
    obtain ⟨l1, l2, hsplit, hfail⟩ := find?_split hget
    have hfail' : ∀ x ∈ l1, x.ticket_id ≠ tid := by
      intro x hx
      simpa using hfail x hx
    have htid : t.ticket_id = tid := by
      simpa using List.find?_some hget
    refine ⟨l1, l2, (match truthy t.assigned_employee_ID with
      | none => w
      | some eid => (update_employee_workload w eid (-1)).1).employees,
      hsplit, hfail', ?_, ?_, ?_, rfl, rfl, rfl⟩
    · have hticks : updateTicketList w.tickets tid (resolveUpdate resolution now)
          = (l1 ++ resolveUpdate resolution now t :: l2, true) := by
        rw [hsplit]
        exact updateTicketList_split tid _ hfail' htid
      have hget' : get_ticket_by_id (l1 ++ resolveUpdate resolution now t :: l2) tid
          = some (resolveUpdate resolution now t) :=
        get_ticket_by_id_append hfail' htid
      unfold resolve_ticket
      rw [hget]
      rcases hassigned : truthy t.assigned_employee_ID with _ | eid
      · simp only [hassigned, hticks, hget', if_true]
      · have hemps : ((update_employee_workload w eid (-1)).1).tickets = w.tickets := rfl
        simp only [hassigned, hemps, hticks, hget', if_true]
    · intro hassigned
      rw [hassigned]
    · intro eid hassigned hnd
      rw [hassigned]
      show (updateWorkloadList w.employees eid (-1)).1 = _
      rw [updateWorkloadList_nodup w.employees eid (-1) hnd]
      apply List.map_congr_left
      intro x hx
      by_cases hxe : x.employee_id = eid
      · rw [if_pos hxe, if_pos hxe, sub_eq_add_neg]
      · rw [if_neg hxe, if_neg hxe]

def TR : Ticket := resolveUpdate none "t1" (assignedTicket A0 "HIGH" "E1")

/-- C1 (counterexample): a second resolve of an already-`RESOLVED`
ticket does not fail with any error — it succeeds — and it does change
the assigned employee's workload (1 becomes 0). -/
theorem resolve_twice_no_error_counterexample :
    TR.status = "RESOLVED" ∧
    (∀ msg, (resolve_ticket
        (World.mk [{ E1 with current_workload := 1 }] [TR]) "TCKT_1" none "t2").2
      ≠ .error msg) ∧
    (resolve_ticket (World.mk [{ E1 with current_workload := 1 }] [TR])
        "TCKT_1" none "t2").1.employees
      = [{ E1 with current_workload := 0 }] := by
  refine ⟨rfl, ?_, ?_⟩
  · intro msg
    simp [resolve_ticket, get_ticket_by_id, TR, resolveUpdate, assignedTicket,
      A0, truthy, update_employee_workload, updateWorkloadList, updateTicketList, E1]
  · simp [resolve_ticket, get_ticket_by_id, TR, resolveUpdate, assignedTicket,
      A0, truthy, update_employee_workload, updateWorkloadList, updateTicketList, E1]

theorem resolve_ticket_spec_witness :
    ∃ l1 l2 emps,
      (World.mk [{ E1 with current_workload := 1 }]
          [assignedTicket A0 "HIGH" "E1"]).tickets
        = l1 ++ assignedTicket A0 "HIGH" "E1" :: l2 ∧
      (∀ x ∈ l1, x.ticket_id ≠ "TCKT_1") ∧
      resolve_ticket (World.mk [{ E1 with current_workload := 1 }]
          [assignedTicket A0 "HIGH" "E1"]) "TCKT_1" none "t1"
        = ({ employees := emps,
             tickets := l1 ++ resolveUpdate none "t1" (assignedTicket A0 "HIGH" "E1") :: l2 },
           .success (some (resolveUpdate none "t1" (assignedTicket A0 "HIGH" "E1")))) ∧
      (truthy (assignedTicket A0 "HIGH" "E1").assigned_employee_ID = none →
        emps = [{ E1 with current_workload := 1 }]) ∧
      (∀ eid, truthy (assignedTicket A0 "HIGH" "E1").assigned_employee_ID = some eid →
        ([{ E1 with current_workload := 1 }].map Employee.employee_id).Nodup →
        emps = [{ E1 with current_workload := 1 }].map (fun x =>
          if x.employee_id = eid then
            { x with current_workload := max 0 (x.current_workload - 1) }
          else x)) ∧
      (resolveUpdate none "t1" (assignedTicket A0 "HIGH" "E1")).status = "RESOLVED" ∧
      (resolveUpdate none "t1" (assignedTicket A0 "HIGH" "E1")).resolved_at = some "t1" ∧
      (resolveUpdate none "t1" (assignedTicket A0 "HIGH" "E1")).resolution = none :=
  (resolve_ticket_spec (World.mk [{ E1 with current_workload := 1 }]
      [assignedTicket A0 "HIGH" "E1"]) "TCKT_1" none "t1").2
    (assignedTicket A0 "HIGH" "E1") rfl

/-- C10: severity is normalised to upper case before branching and
storing: every case variant of "critical" takes the `PENDING_APPROVAL`
admin-gated path, a missing severity defaults to `"MEDIUM"` and takes
the auto-assign path, and the persisted ticket always carries the
normalised (upper-cased) severity. -/
theorem create_ticket_from_issue_severity_spec (w : World) (a : CreateArgs)
    (severity : Option String) :
    (severityUpper none = "MEDIUM") ∧
    (∀ s, s ≠ "" → severityUpper (some s) = strUpper s) ∧
    (∀ t, (create_ticket_from_issue w a severity).2 = some t →
      t.severity = severityUpper severity ∧
      (severityUpper severity = "CRITICAL" → t.status = "PENDING_APPROVAL") ∧
      (severityUpper severity ≠ "CRITICAL" →
        (t.status = "OPEN" ∨ t.status = "ASSIGNED") ∧
        t.status ≠ "PENDING_APPROVAL")) := by
  refine ⟨rfl, ?_, ?_⟩
  · intro s hs
    unfold severityUpper truthy
    simp only [if_neg hs]
  · intro t hsome
    unfold create_ticket_from_issue at hsome
    by_cases hcrit : severityUpper severity = "CRITICAL"
    · rw [if_pos hcrit] at hsome
      simp only [create_critical_ticket, Option.some.injEq] at hsome
      subst hsome
      refine ⟨by rw [hcrit]; rfl, fun _ => rfl, fun h => absurd hcrit h⟩
    · rw [if_neg hcrit] at hsome
      unfold create_non_critical_ticket at hsome
      rcases hfind : find_best_employee w.employees
          (determine_required_skills a.issue_type (severityUpper severity))
          a.issue_type (determine_specialization a.issue_type) with _ | e
      · simp only [hfind, Option.some.injEq] at hsome
        subst hsome
        exact ⟨rfl, fun h => absurd h hcrit,
          fun _ => ⟨Or.inl rfl, by show ("OPEN" : String) ≠ "PENDING_APPROVAL"; decide⟩⟩
      · simp only [hfind, Option.some.injEq] at hsome
        subst hsome
        exact ⟨rfl, fun h => absurd h hcrit,
          fun _ => ⟨Or.inr rfl, by show ("ASSIGNED" : String) ≠ "PENDING_APPROVAL"; decide⟩⟩

theorem create_ticket_from_issue_severity_spec_witness :
    severityUpper (some "Critical") = strUpper "Critical" ∧
    ∀ t, (create_ticket_from_issue (World.mk [] []) A0 (some "Critical")).2 = some t →
      t.severity = severityUpper (some "Critical") ∧
      t.status = "PENDING_APPROVAL" := by
  have h := create_ticket_from_issue_severity_spec (World.mk [] []) A0 (some "Critical")
  refine ⟨h.2.1 "Critical" (by decide), ?_⟩
  intro t hsome
  obtain ⟨h1, h2, -⟩ := h.2.2 t hsome
  exact ⟨h1, h2 (by decide)⟩

theorem strLtb_irrefl : ∀ l : List Char, strLtb l l = false
  | [] => rfl
  | a :: as => by
    unfold strLtb
    rw [if_pos rfl]
    exact strLtb_irrefl as

theorem strLtb_trans : ∀ a b c : List Char,
    strLtb a b = true → strLtb b c = true → strLtb a c = true
  | [], [], _, h1, _ => absurd h1 (by simp [strLtb])
  | _ :: _, [], _, h1, _ => absurd h1 (by simp [strLtb])
  | [], _ :: _, [], _, h2 => absurd h2 (by simp [strLtb])
  | _ :: _, _ :: _, [], _, h2 => absurd h2 (by simp [strLtb])
  | [], _ :: _, _ :: _, _, _ => rfl
  | x :: as, y :: bs, z :: cs, h1, h2 => by
    unfold strLtb at h1 h2 ⊢
    by_cases hxy : x = y
    · rw [if_pos hxy] at h1
      by_cases hyz : y = z
      · rw [if_pos hyz] at h2
        rw [if_pos (hxy.trans hyz)]
        exact strLtb_trans as bs cs h1 h2
      · rw [if_neg hyz] at h2
        have hyz' : y < z := by simpa using h2
        have hxz' : x < z := hxy ▸ hyz'
        rw [if_neg (ne_of_lt hxz')]
        simpa using hxz'
    · rw [if_neg hxy] at h1
      have hxy' : x < y := by simpa using h1
      by_cases hyz : y = z
      · have hxz' : x < z := hyz ▸ hxy'
        rw [if_neg (ne_of_lt hxz')]
        simpa using hxz'
      · rw [if_neg hyz] at h2
        have hyz' : y < z := by simpa using h2
        have hxz' : x < z := lt_trans hxy' hyz'
        rw [if_neg (ne_of_lt hxz')]
        simpa using hxz'

theorem strLtb_trichotomy : ∀ a b : List Char,
    a = b ∨ strLtb a b = true ∨ strLtb b a = true
  | [], [] => Or.inl rfl
  | [], _ :: _ => Or.inr (Or.inl rfl)
  | _ :: _, [] => Or.inr (Or.inr rfl)
  | x :: as, y :: bs => by
    by_cases hxy : x = y
    · rcases strLtb_trichotomy as bs with h | h | h
      · exact Or.inl (by rw [hxy, h])
      · refine Or.inr (Or.inl ?_)
        unfold strLtb
        rw [if_pos hxy]
        exact h
      · refine Or.inr (Or.inr ?_)
        unfold strLtb
        rw [if_pos hxy.symm]
        exact h
    · rcases lt_trichotomy x y with hlt | heq | hgt
      · refine Or.inr (Or.inl ?_)
        unfold strLtb
        rw [if_neg hxy]
        simpa using hlt
      · exact absurd heq hxy
      · refine Or.inr (Or.inr ?_)
        unfold strLtb
        rw [if_neg (Ne.symm hxy)]
        simpa using hgt

theorem strLeB_total (a b : String) : (strLeB a b || strLeB b a) = true := by
  unfold strLeB
  by_cases h1 : strLtb b.data a.data = true
  · by_cases h2 : strLtb a.data b.data = true
    · have h := strLtb_trans _ _ _ h1 h2
      rw [strLtb_irrefl] at h
      exact absurd h (by simp)
    · rw [Bool.not_eq_true] at h2
      simp [h2]
  · rw [Bool.not_eq_true] at h1
    simp [h1]

theorem strLeB_trans (a b c : String) (h1 : strLeB a b = true)
    (h2 : strLeB b c = true) : strLeB a c = true := by
  unfold strLeB at h1 h2 ⊢
  rw [Bool.not_eq_true'] at h1 h2 ⊢
  by_contra hca
  rw [Bool.not_eq_false] at hca
  rcases strLtb_trichotomy a.data b.data with he | hab | hba
  · rw [he] at hca
    rw [hca] at h2
    exact absurd h2 (by simp)
  · have h := strLtb_trans _ _ _ hca hab
    rw [h] at h2
    exact absurd h2 (by simp)
  · rw [hba] at h1
    exact absurd h1 (by simp)

theorem healthAsc_trans : ∀ (a b c : CustomerHealth),
    healthAsc a b = true → healthAsc b c = true → healthAsc a c = true := by
  intro a b c h1 h2
  simp only [healthAsc, decide_eq_true_eq] at *
  exact le_trans h1 h2

theorem healthAsc_total : ∀ (a b : CustomerHealth),
    (healthAsc a b || healthAsc b a) = true := by
  intro a b
  simp only [healthAsc, Bool.or_eq_true, decide_eq_true_eq]
  exact le_total _ _

theorem bumpStats_customer (s : CustomerStats) (st : String) :
    (bumpStats s st).customer = s.customer := by
  unfold bumpStats
  dsimp only
  split_ifs <;> rfl

theorem addLog_customers (acc : List CustomerStats) (log : LogEntry) :
    (addLog acc log).map CustomerStats.customer
      = if acc.any (fun s => s.customer = log.customer_name)
        then acc.map CustomerStats.customer
        else acc.map CustomerStats.customer ++ [log.customer_name] := by
  unfold addLog
  by_cases h : acc.any (fun s => s.customer = log.customer_name) = true
  · rw [if_pos h, if_pos h, List.map_map]
    apply List.map_congr_left
    intro x _
    simp only [Function.comp]
    by_cases hx : x.customer = log.customer_name
    · rw [if_pos hx, bumpStats_customer]
    · rw [if_neg hx]
  · rw [if_neg h, if_neg h, List.map_append]
    congr 1
    rw [List.map_singleton, bumpStats_customer]
    rfl

theorem customers_foldl_nodup : ∀ (logs : List LogEntry) (acc : List CustomerStats),
    (acc.map CustomerStats.customer).Nodup →
    ((logs.foldl addLog acc).map CustomerStats.customer).Nodup := by
  intro logs
  induction logs with
  | nil => intro acc h; exact h
  | cons l ls ih =>
    intro acc h
    simp only [List.foldl_cons]
    apply ih
    rw [addLog_customers]
    by_cases hc : acc.any (fun s => s.customer = l.customer_name) = true
    · rw [if_pos hc]; exact h
    · rw [if_neg hc]
      rw [List.nodup_append]
      refine ⟨h, List.nodup_singleton _, ?_⟩
      intro x hx hx2
      rw [List.mem_singleton] at hx2
      subst hx2
      rw [Bool.not_eq_true, List.any_eq_false] at hc
      rw [List.mem_map] at hx
      obtain ⟨s, hs, hsx⟩ := hx
      exact hc s hs (by simpa using hsx)

theorem customerStats_nodup (logs : List LogEntry) :
    ((customerStats logs).map CustomerStats.customer).Nodup :=
  customers_foldl_nodup logs [] (by simp)

theorem mem_customers_foldl : ∀ (logs : List LogEntry) (acc : List CustomerStats)
    (x : String),
    (x ∈ (logs.foldl addLog acc).map CustomerStats.customer ↔
      x ∈ acc.map CustomerStats.customer ∨ ∃ log ∈ logs, log.customer_name = x) := by
  intro logs
  induction logs with
  | nil => intro acc x; simp
  | cons l ls ih =>
    intro acc x
    simp only [List.foldl_cons]
    rw [ih]
    rw [addLog_customers]
    by_cases hc : acc.any (fun s => s.customer = l.customer_name) = true
    · rw [if_pos hc]
      have hname : l.customer_name ∈ acc.map CustomerStats.customer := by
        rw [List.any_eq_true] at hc
        obtain ⟨s, hs, hsx⟩ := hc
        exact List.mem_map.mpr ⟨s, hs, by simpa using hsx⟩
      constructor
      · rintro (hr | hr)
        · exact Or.inl hr
        · obtain ⟨lg, hm, he⟩ := hr
          exact Or.inr ⟨lg, List.mem_cons_of_mem _ hm, he⟩
      · rintro (hr | ⟨lg, hm, he⟩)
        · exact Or.inl hr
        · rcases List.mem_cons.mp hm with rfl | hm'
          · exact Or.inl (he ▸ hname)
          · exact Or.inr ⟨lg, hm', he⟩
    · rw [if_neg hc]
      simp only [List.mem_append, List.mem_singleton]
      constructor
      · rintro ((hr | hr) | hr)
        · exact Or.inl hr
        · exact Or.inr ⟨l, List.mem_cons_self _ _, hr.symm⟩
        · obtain ⟨lg, hm, he⟩ := hr
          exact Or.inr ⟨lg, List.mem_cons_of_mem _ hm, he⟩
      · rintro (hr | ⟨lg, hm, he⟩)
        · exact Or.inl (Or.inl hr)
        · rcases List.mem_cons.mp hm with rfl | hm'
          · exact Or.inl (Or.inr he.symm)
          · exact Or.inr ⟨lg, hm', he⟩

theorem mem_criticalFold : ∀ (logs : List LogEntry) (acc : List String) (r : String),
    (r ∈ logs.foldl (fun acc log =>
        if log.status = "ERROR" || log.status = "CRITICAL" then
          acc ++ log.resources_affected
        else acc) acc ↔
      r ∈ acc ∨ ∃ log ∈ logs, (log.status = "ERROR" ∨ log.status = "CRITICAL")
        ∧ r ∈ log.resources_affected) := by
  intro logs
  induction logs with
  | nil => intro acc r; simp
  | cons l ls ih =>
    intro acc r
    simp only [List.foldl_cons]
    rw [ih]
    by_cases h : (l.status = "ERROR" || l.status = "CRITICAL") = true
    · rw [if_pos h]
      simp only [Bool.or_eq_true, decide_eq_true_eq] at h
      simp only [List.mem_append]
      constructor
      · rintro ((hr | hr) | hr)
        · exact Or.inl hr
        · exact Or.inr ⟨l, List.mem_cons_self _ _, h, hr⟩
        · obtain ⟨lg, hm, hs, hr2⟩ := hr
          exact Or.inr ⟨lg, List.mem_cons_of_mem _ hm, hs, hr2⟩
      · rintro (hr | ⟨lg, hm, hs, hr2⟩)
        · exact Or.inl (Or.inl hr)
        · rcases List.mem_cons.mp hm with rfl | hm'
          · exact Or.inl (Or.inr hr2)
          · exact Or.inr ⟨lg, hm', hs, hr2⟩
    · rw [if_neg h]
      simp only [Bool.or_eq_true, decide_eq_true_eq] at h
      push_neg at h
      constructor
      · rintro (hr | hr)
        · exact Or.inl hr
        · obtain ⟨lg, hm, hs, hr2⟩ := hr
          exact Or.inr ⟨lg, List.mem_cons_of_mem _ hm, hs, hr2⟩
      · rintro (hr | ⟨lg, hm, hs, hr2⟩)
        · exact Or.inl hr
        · rcases List.mem_cons.mp hm with rfl | hm'
          · rcases hs with hs | hs
            · exact absurd hs h.1
            · exact absurd hs h.2
          · exact Or.inr ⟨lg, hm', hs, hr2⟩

theorem round2_hundred : round2 (100 : ℚ) = 100 := by
  have h := round2_intCast 100
  norm_num at h
  exact h

theorem toHealth_health_100 (s : CustomerStats) (he : s.error_logs = 0)
    (hw : s.warning_logs = 0) (hc : s.critical_logs = 0) :
    (toHealth s).health_value = 100 := by
  unfold toHealth
  dsimp only
  rw [he, hw, hc]
  by_cases h : (s.total_logs : ℚ) > 0
  · rw [if_pos h]
    have htot : ((s.total_logs : ℚ) - (0:ℕ) - (0:ℕ) - (0:ℕ)) / s.total_logs * 100
        = 100 := by
      push_cast
      field_simp
    rw [htot, round2_hundred]
  · rw [if_neg h, round2_hundred]

/-- C9: the health summary is `none` exactly on an empty log list;
otherwise it returns one entry per distinct `customer_name`, each
carrying `round((ok/total*100) if total>0 else 100.0, 2)` as its health
value (so a customer with zero ERROR/WARNING/CRITICAL logs reads
exactly 100), sorted ascending by health with encounter-ordered ties
(stable sort), together with the deduplicated, lexicographically
ascending list of every resource affected by an ERROR or CRITICAL
log. -/
theorem get_customer_health_summary_spec (logs : List LogEntry) :
    (logs = [] → get_customer_health_summary logs = none) ∧
    (logs ≠ [] →
      ∃ s, get_customer_health_summary logs = some s ∧
        s.affected_customers.Perm ((customerStats logs).map toHealth) ∧
        (s.affected_customers.map CustomerHealth.customer).Nodup ∧
        (∀ c ∈ s.affected_customers, ∃ log ∈ logs, log.customer_name = c.customer) ∧
        (∀ log ∈ logs, ∃ c ∈ s.affected_customers, c.customer = log.customer_name) ∧
        (∀ c ∈ s.affected_customers,
          c.health_value = round2 (if (c.total_logs : ℚ) > 0 then
            ((c.total_logs : ℚ) - c.error_logs - c.warning_logs - c.critical_logs)
              / c.total_logs * 100
          else 100)) ∧
        (∀ c ∈ s.affected_customers,
          c.error_logs = 0 → c.warning_logs = 0 → c.critical_logs = 0 →
          c.health_value = 100) ∧
        s.affected_customers.Pairwise (fun a b => a.health_value ≤ b.health_value) ∧
        (∀ x y, [x, y].Sublist ((customerStats logs).map toHealth) →
          x.health_value ≤ y.health_value →
          [x, y].Sublist s.affected_customers) ∧
        (∀ r, r ∈ s.critical_issues ↔ ∃ log ∈ logs,
          (log.status = "ERROR" ∨ log.status = "CRITICAL")
            ∧ r ∈ log.resources_affected) ∧
        s.critical_issues.Nodup ∧
        s.critical_issues.Pairwise (fun a b => strLeB a b = true)) := by
  constructor
  · intro h
    subst h
    rfl
  · intro hne
    have hisEmpty : logs.isEmpty = false := List.isEmpty_eq_false.mpr hne
    refine ⟨_, by unfold get_customer_health_summary; rw [hisEmpty]; rfl,
      ?_, ?_, ?_, ?_, ?_, ?_, ?_, ?_, ?_, ?_, ?_⟩
    · exact List.mergeSort_perm _ healthAsc
    · have hperm : List.Perm
          ((((customerStats logs).map toHealth).mergeSort healthAsc).map
            CustomerHealth.customer)
          (((customerStats logs).map toHealth).map CustomerHealth.customer) :=
        (List.mergeSort_perm _ healthAsc).map _
      refine hperm.symm.nodup ?_
      rw [List.map_map]
      have : (CustomerHealth.customer ∘ toHealth) = CustomerStats.customer := by
        funext s
        rfl
      rw [this]
      exact customerStats_nodup logs
    · intro c hc
      have hc' : c ∈ (customerStats logs).map toHealth :=
        List.mem_mergeSort.mp hc
      rw [List.mem_map] at hc'
      obtain ⟨st, hst, hct⟩ := hc'
      have hmemc : st.customer ∈ (customerStats logs).map CustomerStats.customer :=
        List.mem_map_of_mem _ hst
      unfold customerStats at hmemc
      rw [mem_customers_foldl logs [] st.customer] at hmemc
      rcases hmemc with h | ⟨lg, hm, he⟩
      · simp at h
      · exact ⟨lg, hm, by rw [he, ← hct]; rfl⟩
    · intro lg hlg
      have hname : lg.customer_name
          ∈ (customerStats logs).map CustomerStats.customer := by
        unfold customerStats
        rw [mem_customers_foldl logs [] lg.customer_name]
        exact Or.inr ⟨lg, hlg, rfl⟩
      rw [List.mem_map] at hname
      obtain ⟨st, hst, hstc⟩ := hname
      refine ⟨toHealth st, ?_, hstc⟩
      exact List.mem_mergeSort.mpr (List.mem_map_of_mem _ hst)
    · intro c hc
      have hc' : c ∈ (customerStats logs).map toHealth :=
        List.mem_mergeSort.mp hc
      rw [List.mem_map] at hc'
      obtain ⟨st, _, hct⟩ := hc'
      subst hct
      rfl
    · intro c hc he hw hcr
      have hc' : c ∈ (customerStats logs).map toHealth :=
        List.mem_mergeSort.mp hc
      rw [List.mem_map] at hc'
      obtain ⟨st, _, hct⟩ := hc'
      subst hct
      exact toHealth_health_100 st (by simpa using he) (by simpa using hw)
        (by simpa using hcr)
    · have hs := List.sorted_mergeSort healthAsc_trans healthAsc_total
        ((customerStats logs).map toHealth)
      exact hs.imp (fun h => by simpa [healthAsc] using h)
    · intro x y hsub hle
      exact List.pair_sublist_mergeSort healthAsc_trans healthAsc_total
        (by simpa [healthAsc] using hle) hsub
    · intro r
      unfold critical_resources
      rw [List.mem_mergeSort, List.mem_dedup]
      rw [mem_criticalFold logs [] r]
      simp
    · refine (List.mergeSort_perm _ strLeB).symm.nodup ?_
      exact List.nodup_dedup _
    · exact List.sorted_mergeSort strLeB_trans strLeB_total _

theorem get_customer_health_summary_spec_witness :
    ∃ s, get_customer_health_summary
        [⟨"X", "ERROR", ["res_1"]⟩, ⟨"Y", "OK", []⟩] = some s ∧
      (∀ c ∈ s.affected_customers,
        c.error_logs = 0 → c.warning_logs = 0 → c.critical_logs = 0 →
        c.health_value = 100) ∧
      s.critical_issues.Nodup := by
  obtain ⟨s, h1, -, -, -, -, -, h7, -, -, -, h11, -⟩ :=
    (get_customer_health_summary_spec
      [⟨"X", "ERROR", ["res_1"]⟩, ⟨"Y", "OK", []⟩]).2 (by simp)
  exact ⟨s, h1, h7, h11⟩

theorem score_employee_spec_witness :
    (0 ≤ E1.current_workload ∧ E1.current_workload ≤ E1.max_workload) ∧
    0 ≤ score_employee E1 ["AWS", "DevOps"] "cpu_spike" "performance" ∧
    score_employee E1 ["AWS", "DevOps"] "cpu_spike" "performance" ≤ 100 :=
  ⟨⟨by norm_num [E1], by norm_num [E1]⟩,
    score_employee_spec.2.2.2.2.2.1 E1 ["AWS", "DevOps"] "cpu_spike" "performance"
      (by norm_num [E1]) (by norm_num [E1])⟩

theorem score_employee_skill_monotone_witness :
    score_employee { E1 with skills := [] } ["AWS"] "cpu_spike" "performance"
      ≤ score_employee { E1 with skills := ["AWS"] } ["AWS"] "cpu_spike" "performance" :=
  score_employee_skill_monotone E1 [] ["AWS"] ["AWS"] "cpu_spike" "performance"
    (by decide) (by decide)

end Olympus
